import Mathlib

/-!
# Verification of `unified_planning.solvers.pddl_solver`

A shallow embedding of `src/unified_planning/solvers/pddl_solver.py`:
the plan parser `PDDLSolver._plan_from_file`, the orchestrator
`PDDLSolver.solve`, and the process runner `run_command`, together with
theorems settling the specification claims about them.

Conventions of the embedding:

* Python strings are Lean `String`s; a plan file is the list of its lines
  (as produced by `readlines`, with the trailing newline dropped — the
  regexes of the source treat a trailing `\n` as whitespace, so the two
  presentations match on every line `readlines` can produce).
* Python `re` patterns on a single line are embedded as character-level
  recognizers over `List Char` that match exactly the same strings.
* Exceptions (`UPException`, spawn failures) are `Except String`.
* The subprocess interaction of `run_command` is embedded as a trace of
  polling cycles: each cycle records what the two `readline` calls
  produced (`line0`/`line1`, with `ok` false when `asyncio.wait_for`
  timed out), the elapsed wall-clock time at the end-of-cycle deadline
  check, and whether a `process.kill()` issued in that cycle would raise
  `OSError`.
-/

namespace PddlSolver

/-- Python's `\s` character class (ASCII range): space, tab, newline,
carriage return, vertical tab, form feed. -/
def isWs (c : Char) : Bool :=
  c = ' ' || c = '\t' || c = '\n' || c = '\r' || c = '\x0b' || c = '\x0c'

/-- The character class `[\w?-]` of the action-line regex:
alphanumerics, underscore, question mark, hyphen. -/
def isWordChar (c : Char) : Bool :=
  c.isAlphanum || c = '_' || c = '?' || c = '-'

/-- Strip leading and trailing whitespace (the outer `^\s*` / `\s*$` of
both regexes). -/
def trimWs (l : List Char) : List Char :=
  ((l.dropWhile isWs).reverse.dropWhile isWs).reverse

/-- The blank/comment pattern `^\s*(;.*)?$` of `_plan_from_file` line 61:
after leading whitespace the line is empty or starts with `;`. -/
def isBlankOrComment (line : String) : Bool :=
  match line.toList.dropWhile isWs with
  | [] => true
  | c :: _ => c = ';'

/-- Split a character list into maximal runs of non-whitespace characters,
discarding the whitespace — Python's `str.split()` with no argument,
used on `res.group(2)` at line 67. `cur` is the current run, reversed. -/
def wordsAux : List Char → List Char → List (List Char)
  | [], cur => if cur.isEmpty then [] else [cur.reverse]
  | c :: rest, cur =>
    if isWs c then
      if cur.isEmpty then wordsAux rest [] else cur.reverse :: wordsAux rest []
    else wordsAux rest (c :: cur)

/-- The action-line pattern `^\s*\(\s*([\w?-]+)((\s+[\w?-]+)*)\s*\)\s*$`
of `_plan_from_file` line 63, returning `group(1)` (the action name) and
`group(2).split()` (the parameter tokens).

After stripping the outer whitespace the regex demands an opening `(`,
a closing `)`, and between them a string over `\s` and `[\w?-]` only,
containing at least one `[\w?-]` run; the first run is `group(1)` and
the remaining runs are the split of `group(2)`. -/
def matchActionLine (line : String) : Option (String × List String) :=
  match trimWs line.toList with
  | '(' :: rest =>
    match rest.reverse with
    | ')' :: innerRev =>
      let inner := innerRev.reverse
      if inner.all (fun c => isWs c || isWordChar c) then
        match wordsAux inner [] with
        | [] => none
        | n :: ps => some (n.asString, List.map (fun w => w.asString) ps)
      else none
    | _ => none
  | _ => none

/-- A named action of the problem (`problem.action(name)` returns it). -/
structure Action where
  name : String
deriving DecidableEq, Repr

/-- A named object of the problem (`problem.object(name)` returns it). -/
structure PObject where
  name : String
deriving DecidableEq, Repr

/-- `ObjectExp(obj)` — the expression wrapper put around each resolved
parameter at line 68. -/
structure ObjectExp where
  obj : PObject
deriving DecidableEq, Repr

/-- `up.plan.ActionInstance(action, tuple(parameters))` (line 69). -/
structure ActionInstance where
  action : Action
  params : List ObjectExp
deriving DecidableEq, Repr

/-- `up.plan.SequentialPlan(actions)` (line 72). -/
structure SequentialPlan where
  actions : List ActionInstance
deriving DecidableEq, Repr

/-- The read-only view of `up.model.Problem` that `_plan_from_file` uses:
its action registry (`problem.action`) and object registry
(`problem.object`). Modelled from the spec: the `Problem` class lives
outside this source file; per §4.2 each registry is a case-sensitive
exact-match name lookup and an unresolved name fails with an error
naming the token. -/
structure Problem where
  actions : String → Option Action
  objects : String → Option PObject

/-- `problem.action(name)`, failing on an unregistered name. -/
def Problem.action (pb : Problem) (n : String) : Except String Action :=
  match pb.actions n with
  | some a => .ok a
  | none => .error ("unknown action " ++ n)

/-- `problem.object(name)`, failing on an unregistered name. -/
def Problem.object (pb : Problem) (n : String) : Except String PObject :=
  match pb.objects n with
  | some o => .ok o
  | none => .error ("unknown object " ++ n)

/-- The parameter-resolution loop of lines 66–68: each token of
`group(2).split()` resolved via `problem.object` and wrapped in
`ObjectExp`. -/
def resolveParams (pb : Problem) : List String → Except String (List ObjectExp)
  | [] => .ok []
  | p :: ps =>
    match pb.object p with
    | .error e => .error e
    | .ok o =>
      match resolveParams pb ps with
      | .error e => .error e
      | .ok os => .ok (ObjectExp.mk o :: os)

/-- The exact message of line 71:
`'Error parsing plan generated by ' + self.__class__.__name__`. -/
def parseErrorMsg (clsName : String) : String :=
  "Error parsing plan generated by " ++ clsName

/-- The line loop of `_plan_from_file` (lines 60–71), with `acc` the
`actions` accumulator. Blank/comment lines are skipped; a line matching
the action pattern is resolved and appended; any other line raises
`UPException` with the class-name message. -/
def planFromFileAux (pb : Problem) (clsName : String) :
    List String → List ActionInstance → Except String (List ActionInstance)
  | [], acc => .ok acc
  | line :: rest, acc =>
    if isBlankOrComment line then
      planFromFileAux pb clsName rest acc
    else
      match matchActionLine line with
      | some (n, ps) =>
        match pb.action n with
        | .error e => .error e
        | .ok a =>
          match resolveParams pb ps with
          | .error e => .error e
          | .ok os => planFromFileAux pb clsName rest (acc ++ [ActionInstance.mk a os])
      | none => .error (parseErrorMsg clsName)

/-- `PDDLSolver._plan_from_file(problem, plan_filename)` with the plan
file given as its list of lines; `clsName` is `self.__class__.__name__`. -/
def plan_from_file (pb : Problem) (clsName : String) (lines : List String) :
    Except String SequentialPlan :=
  (planFromFileAux pb clsName lines []).map SequentialPlan.mk

/-- `LogLevel`. Modelled from the spec: the `up.solvers.results` module is
outside this source file; per §3 a `LogMessage` level is `INFO` or
`ERROR`. -/
inductive LogLevel where
  | INFO
  | ERROR
deriving DecidableEq, Repr

/-- `up.solvers.results.LogMessage(level, text)`. -/
structure LogMessage where
  level : LogLevel
  text : String
deriving DecidableEq, Repr

/-- The status codes of `up.solvers.results`. Modelled from the spec:
that module is outside this source file; per §3 the status enum is
`{SUCCESS, UNSOLVABLE, TIMEOUT, INTERNAL_ERROR, UNSUPPORTED}`. -/
inductive ResultStatus where
  | SUCCESS
  | UNSOLVABLE
  | TIMEOUT
  | INTERNAL_ERROR
  | UNSUPPORTED
deriving DecidableEq, Repr

/-- `up.solvers.results.PlanGenerationResult(status, plan, log_messages,
planner_name)`. -/
structure PlanGenerationResult where
  status : ResultStatus
  plan : Option SequentialPlan
  log_messages : List LogMessage
  planner_name : String
deriving DecidableEq, Repr

/-- One iteration of the polling loop of `run_command` (lines 122–146),
as observed from the child process: what the two bounded
`stream.readline()` calls produced (`ok` is false when `asyncio.wait_for`
raised `TimeoutError`, in which case the source leaves `lines[idx]` at
`b""`), the value of `time.time() - start` at the end-of-cycle deadline
check, and whether a `process.kill()` issued in this cycle would raise
`OSError` (the process being already dead). -/
structure Cycle where
  line0 : String
  line1 : String
  ok0 : Bool
  ok1 : Bool
  elapsed : Nat
  killFails : Bool
deriving DecidableEq, Repr

/-- `lines[idx].decode().replace('\r\n', '\n')` (line 136): replace each
(leftmost, non-overlapping) CRLF pair by a newline. -/
def replaceCRLF : List Char → List Char
  | [] => []
  | '\r' :: '\n' :: rest => '\n' :: replaceCRLF rest
  | c :: rest => c :: replaceCRLF rest

/-- Decode one chunk as line 136 does. -/
def decodeChunk (s : String) : String :=
  (replaceCRLF s.toList).asString

/-- The EOF break condition of line 132:
`all(oks) and (not lines[0] and not lines[1])`. -/
def eofCycle (c : Cycle) : Bool :=
  c.ok0 && c.ok1 && c.line0 = "" && c.line1 = ""

/-- The result of the polling loop: `timeout_occoured`, the accumulated
`process_output` pair (stdout chunks, stderr chunks), the chunks written
to `output_stream` in order, and whether `process.kill()` was invoked. -/
structure LoopResult where
  timeout_occoured : Bool
  out0 : List String
  out1 : List String
  sink : List String
  killInvoked : Bool
deriving DecidableEq, Repr

/-- The `while True` loop of `run_command` (lines 122–146) over a trace
of polling cycles. Each cycle: if the EOF condition fires the loop
breaks normally; otherwise both decoded chunks are appended to
`process_output` (and forwarded to the sink), and then, when a timeout
is set and the elapsed time has reached it, the child is killed (an
`OSError` from the kill is swallowed), `timeout_occoured` is set and the
loop breaks. `none` means the trace ended without the loop breaking. -/
def runLoop (timeout : Option Nat) :
    List Cycle → List String → List String → List String → Option LoopResult
  | [], _, _, _ => none
  | c :: rest, out0, out1, sink =>
    if eofCycle c then
      some ⟨false, out0, out1, sink, false⟩
    else
      let s0 := decodeChunk c.line0
      let s1 := decodeChunk c.line1
      let out0' := out0 ++ [s0]
      let out1' := out1 ++ [s1]
      let sink' := sink ++ [s0, s1]
      match timeout with
      | some t =>
        if t ≤ c.elapsed then some ⟨true, out0', out1', sink', true⟩
        else runLoop timeout rest out0' out1' sink'
      | none => runLoop timeout rest out0' out1' sink'

/-- `run_command(cmd, timeout, output_stream)` (lines 116–149). The
spawn step (`asyncio.create_subprocess_exec`, line 118) is represented
by `spawn`: `.error` when the process cannot be spawned, in which case
the exception propagates uncaught. On a successful spawn the polling
loop runs over `trace`; `retval` is `process.returncode` as read after
`await process.wait()`. `.ok none` models a loop that never breaks
within the trace. -/
def run_command (spawn : Except String Unit) (trace : List Cycle)
    (timeout : Option Nat) (retval : Int) :
    Except String (Option (Bool × (List String × List String) × Int)) :=
  match spawn with
  | .error e => .error e
  | .ok _ =>
    match runLoop timeout trace [] [] [] with
    | none => .ok none
    | some r => .ok (some (r.timeout_occoured, (r.out0, r.out1), retval))

/-- `PDDLSolver.solve` (lines 74–105). The external pieces are
parameters: `spawn`, `trace`, `retval` feed the embedded `run_command`;
`planFileExists` is the `os.path.isfile(plan_filename)` test of line
100; `planLines` is the content the solver wrote to the plan file;
`resultStatus` is the abstract method `self._result_status(problem, ·)`
(the problem argument is fixed); `clsName` is `self.__class__.__name__`
and `plannerName` is `self.name`. `.error` models an exception
propagating out of `solve`; `.ok none` models a run that never
finishes. -/
def solve (pb : Problem) (clsName plannerName : String)
    (spawn : Except String Unit) (trace : List Cycle)
    (timeout : Option Nat) (retval : Int)
    (planFileExists : Bool) (planLines : List String)
    (resultStatus : Option SequentialPlan → ResultStatus) :
    Except String (Option PlanGenerationResult) :=
  match run_command spawn trace timeout retval with
  | .error e => .error e
  | .ok none => .ok none
  | .ok (some (timeout_occurred, (proc_out, proc_err), rv)) =>
    let logs := [LogMessage.mk LogLevel.INFO (String.join proc_out),
                 LogMessage.mk LogLevel.ERROR (String.join proc_err)]
    match (if planFileExists then (plan_from_file pb clsName planLines).map some
           else .ok none) with
    | .error e => .error e
    | .ok plan =>
      if timeout_occurred = true ∧ rv ≠ 0 then
        .ok (some ⟨ResultStatus.TIMEOUT, plan, logs, plannerName⟩)
      else
        .ok (some ⟨resultStatus plan, plan, logs, plannerName⟩)

/-- A token over the action-line character class `[\w?-]`: nonempty, all
word characters. -/
def isToken (s : String) : Bool :=
  !s.toList.isEmpty && s.toList.all isWordChar

/-- The parameter section ` p1 p2 ... pn` of a constructed action line. -/
def paramsStr : List String → String
  | [] => ""
  | p :: ps => " " ++ p ++ paramsStr ps

/-- A canonical well-formed action line `(name p1 p2 ... pn)`, used to
state which line shapes the parser accepts. -/
def mkActionLine (name : String) (params : List String) : String :=
  "(" ++ name ++ paramsStr params ++ ")"

/-- Character-level image of `paramsStr`. -/
def flatTokens : List (List Char) → List Char
  | [] => []
  | p :: ps => ' ' :: (p ++ flatTokens ps)

/-- `needle` occurs as a contiguous substring of `hay`. -/
def containsSub (hay needle : String) : Bool :=
  (List.range (hay.toList.length + 1)).any
    (fun i => needle.toList.isPrefixOf (hay.toList.drop i))

/-- A line is malformed when it matches neither the blank/comment
pattern nor the action pattern — exactly the lines on which
`_plan_from_file` raises `UPException` (line 71). -/
def malformedLine (line : String) : Bool :=
  !isBlankOrComment line && (matchActionLine line).isNone

/-- A line the parser gets past without error: blank/comment, or an
action line whose name and parameters all resolve in `pb`. -/
def cleanLine (pb : Problem) (line : String) : Bool :=
  isBlankOrComment line ||
    match matchActionLine line with
    | some (n, ps) => (pb.actions n).isSome && ps.all (fun p => (pb.objects p).isSome)
    | none => false

/-- The (name, parameter tokens) pairs of the non-skipped lines of a plan
text, in file order. -/
def extractActions (lines : List String) : List (String × List String) :=
  lines.filterMap (fun l => if isBlankOrComment l then none else matchActionLine l)

/-- The structural content of a parsed plan: action names with their
parameter object names, in order. -/
def serializePlan (ais : List ActionInstance) : List (String × List String) :=
  ais.map (fun ai => (ai.action.name, ai.params.map (fun o => o.obj.name)))

/-- The registries are coherent: an entry registered under a name bears
that name (true of `Problem.action`/`Problem.object` in the repository,
which index entities by their own names). -/
def registryConsistent (pb : Problem) : Prop :=
  (∀ n a, pb.actions n = some a → a.name = n) ∧
  (∀ n o, pb.objects n = some o → o.name = n)

/-- A small concrete problem for witnesses: one action `move`, two
objects `a` and `b`. -/
def sampleProblem : Problem :=
  ⟨fun n => if n = "move" then some ⟨"move"⟩ else none,
   fun n => if n = "a" then some ⟨"a"⟩ else if n = "b" then some ⟨"b"⟩ else none⟩

/-- A problem with empty registries. -/
def emptyProblem : Problem :=
  ⟨fun _ => none, fun _ => none⟩

/-! ## Helper lemmas -/

theorem wordChar_not_ws {c : Char} (h : isWordChar c = true) : isWs c = false := by
  cases hw : isWs c with
  | false => rfl
  | true =>
    exfalso
    simp only [isWs, Bool.or_eq_true, decide_eq_true_eq] at hw
    rcases hw with ((((h1 | h1) | h1) | h1) | h1) | h1 <;> subst h1 <;>
      exact absurd h (by decide)

theorem asString_toList (s : String) : s.toList.asString = s := rfl

theorem wordsAux_wordRun (w : List Char) (hw : w.all isWordChar = true) :
    ∀ (rest cur : List Char), wordsAux (w ++ rest) cur = wordsAux rest (w.reverse ++ cur) := by
  induction w with
  | nil => intro rest cur; simp
  | cons c w ih =>
    intro rest cur
    simp only [List.all_cons, Bool.and_eq_true] at hw
    have hcw : isWs c = false := wordChar_not_ws hw.1
    simp only [List.cons_append, wordsAux, hcw, Bool.false_eq_true, if_false,
      List.append_eq]
    rw [ih hw.2]
    congr 1
    simp

theorem wordsAux_flatTokens (ps : List (List Char))
    (hps : ∀ p ∈ ps, p ≠ [] ∧ p.all isWordChar = true) :
    ∀ cur : List Char, cur ≠ [] → wordsAux (flatTokens ps) cur = cur.reverse :: ps := by
  induction ps with
  | nil =>
    intro cur hcur
    simp [flatTokens, wordsAux, hcur]
  | cons p ps ih =>
    intro cur hcur
    have hp := hps p (by simp)
    simp only [flatTokens, wordsAux, show isWs ' ' = true from rfl, if_true,
      List.isEmpty_eq_true, hcur, if_false]
    rw [show (p ++ flatTokens ps : List Char) = p ++ flatTokens ps from rfl,
      wordsAux_wordRun p hp.2]
    rw [List.append_nil]
    rw [ih (fun q hq => hps q (by simp [hq])) p.reverse (by simp [hp.1])]
    simp

theorem all_wsOrWord_of_word {l : List Char} (h : l.all isWordChar = true) :
    l.all (fun c => isWs c || isWordChar c) = true := by
  rw [List.all_eq_true] at h ⊢
  intro c hc
  simp [h c hc]

theorem flatTokens_all (ps : List (List Char)) (h : ∀ p ∈ ps, p.all isWordChar = true) :
    (flatTokens ps).all (fun c => isWs c || isWordChar c) = true := by
  induction ps with
  | nil => rfl
  | cons p ps ih =>
    simp only [flatTokens, List.all_cons, List.all_append, Bool.and_eq_true]
    exact ⟨by decide, all_wsOrWord_of_word (h p (by simp)),
      ih (fun q hq => h q (by simp [hq]))⟩

theorem paramsStr_toList (ps : List String) :
    (paramsStr ps).toList = flatTokens (ps.map String.toList) := by
  induction ps with
  | nil => rfl
  | cons p ps ih =>
    show (" " ++ p ++ paramsStr ps).data = _
    rw [String.data_append, String.data_append]
    simp only [List.map_cons, flatTokens, ← ih]
    rfl

theorem mkActionLine_toList (name : String) (params : List String) :
    (mkActionLine name params).toList
      = '(' :: (name.toList ++ flatTokens (params.map String.toList)) ++ [')'] := by
  show ("(" ++ name ++ paramsStr params ++ ")").data = _
  rw [String.data_append, String.data_append, String.data_append]
  rw [show String.data "(" = ['('] from rfl, show String.data ")" = [')'] from rfl]
  rw [show String.data (paramsStr params) = (paramsStr params).toList from rfl,
    paramsStr_toList]
  simp

theorem trimWs_paren (body : List Char) :
    trimWs ('(' :: body ++ [')']) = '(' :: body ++ [')'] := by
  unfold trimWs
  rw [List.cons_append, List.dropWhile_cons]
  simp only [show isWs '(' = false from rfl, Bool.false_eq_true, if_false]
  rw [List.reverse_cons, List.reverse_append, List.reverse_cons]
  simp only [List.reverse_nil, List.nil_append, List.cons_append, List.dropWhile_cons,
    show isWs ')' = false from rfl, Bool.false_eq_true, if_false]
  simp

theorem matchActionLine_mk (name : String) (params : List String)
    (hn : isToken name = true) (hp : ∀ p ∈ params, isToken p = true) :
    matchActionLine (mkActionLine name params) = some (name, params) := by
  have hn' : name.toList ≠ [] ∧ name.toList.all isWordChar = true := by
    simpa [isToken, Bool.and_eq_true] using hn
  have hp' : ∀ p ∈ params, p.toList ≠ [] ∧ p.toList.all isWordChar = true := by
    intro p hmem
    simpa [isToken, Bool.and_eq_true] using hp p hmem
  unfold matchActionLine
  rw [mkActionLine_toList, trimWs_paren]
  simp only [List.cons_append]
  rw [List.reverse_append]
  simp only [List.reverse_cons, List.reverse_nil, List.nil_append, List.cons_append,
    List.reverse_reverse]
  have hall : (name.toList ++ flatTokens (params.map String.toList)).all
      (fun c => isWs c || isWordChar c) = true := by
    rw [List.all_append, Bool.and_eq_true_iff]
    exact ⟨all_wsOrWord_of_word hn'.2,
      flatTokens_all _ (fun q hq => by
        rcases List.mem_map.mp hq with ⟨p, hmem, rfl⟩
        exact (hp' p hmem).2)⟩
  rw [if_pos hall]
  rw [wordsAux_wordRun name.toList hn'.2, List.append_nil]
  rw [wordsAux_flatTokens (params.map String.toList)
    (fun q hq => by
      rcases List.mem_map.mp hq with ⟨p, hmem, rfl⟩
      exact ⟨by simpa using (hp' p hmem).1, (hp' p hmem).2⟩)
    name.toList.reverse (by simpa using hn'.1)]
  simp only [List.reverse_reverse]
  rw [asString_toList]
  congr 1
  rw [List.map_map]
  have : ((fun w : List Char => w.asString) ∘ String.toList) = id := by
    funext s
    exact asString_toList s
  rw [this, List.map_id]

theorem resolveParams_exists_ok (pb : Problem) :
    ∀ ps : List String, (∀ p ∈ ps, (pb.objects p).isSome = true) →
    ∃ os, resolveParams pb ps = .ok os := by
  intro ps
  induction ps with
  | nil => intro _; exact ⟨[], rfl⟩
  | cons p ps ih =>
    intro h
    obtain ⟨o, ho⟩ := Option.isSome_iff_exists.mp (h p (by simp))
    obtain ⟨os, hos⟩ := ih (fun q hq => h q (by simp [hq]))
    exact ⟨ObjectExp.mk o :: os, by simp only [resolveParams, Problem.object, ho, hos]⟩

theorem resolveParams_names (pb : Problem)
    (hc : ∀ n o, pb.objects n = some o → o.name = n) :
    ∀ (ps : List String) (os : List ObjectExp), resolveParams pb ps = .ok os →
    os.map (fun o => o.obj.name) = ps := by
  intro ps
  induction ps with
  | nil =>
    intro os h
    simp only [resolveParams] at h
    cases h
    rfl
  | cons p ps ih =>
    intro os h
    simp only [resolveParams] at h
    cases ho : pb.object p with
    | error e => simp only [ho] at h; exact Except.noConfusion h
    | ok o =>
      simp only [ho] at h
      cases hos : resolveParams pb ps with
      | error e => simp only [hos] at h; exact Except.noConfusion h
      | ok os2 =>
        simp only [hos] at h
        cases h
        have hname : o.name = p := by
          unfold Problem.object at ho
          cases hobj : pb.objects p with
          | none => simp only [hobj] at ho; exact Except.noConfusion ho
          | some o2 =>
            simp only [hobj] at ho
            have he : o2 = o := by injection ho
            rw [← he]
            exact hc p o2 hobj
        simp [ih os2 hos, hname]

theorem planFromFileAux_insert_blank (pb : Problem) (cn : String) (b : String)
    (hb : isBlankOrComment b = true) :
    ∀ (l1 l2 : List String) (acc : List ActionInstance),
      planFromFileAux pb cn (l1 ++ b :: l2) acc = planFromFileAux pb cn (l1 ++ l2) acc := by
  intro l1
  induction l1 with
  | nil =>
    intro l2 acc
    simp only [List.nil_append, planFromFileAux, hb, if_true]
  | cons a l1 ih =>
    intro l2 acc
    simp only [List.cons_append, planFromFileAux]
    by_cases ha : isBlankOrComment a = true
    · rw [if_pos ha, if_pos ha]
      exact ih l2 acc
    · rw [if_neg ha, if_neg ha]
      cases hma : matchActionLine a with
      | none => rfl
      | some v =>
        obtain ⟨n, ps⟩ := v
        simp only []
        cases hpa : pb.action n with
        | error e => rfl
        | ok act =>
          simp only []
          cases hrp : resolveParams pb ps with
          | error e => rfl
          | ok os =>
            simp only []
            exact ih l2 _

theorem planFromFileAux_error_at (pb : Problem) (cn : String) :
    ∀ (pre : List String), (∀ l ∈ pre, cleanLine pb l = true) →
    ∀ (bad : String), malformedLine bad = true →
    ∀ (rest : List String) (acc : List ActionInstance),
      planFromFileAux pb cn (pre ++ bad :: rest) acc = .error (parseErrorMsg cn) := by
  intro pre
  induction pre with
  | nil =>
    intro _ bad hbad rest acc
    simp only [malformedLine, Bool.and_eq_true, Bool.not_eq_true',
      Option.isNone_iff_eq_none] at hbad
    simp only [List.nil_append, planFromFileAux, hbad.1, Bool.false_eq_true, if_false,
      hbad.2]
  | cons a pre ih =>
    intro hpre bad hbad rest acc
    have ha := hpre a (by simp)
    simp only [List.cons_append, planFromFileAux]
    by_cases hb : isBlankOrComment a = true
    · rw [if_pos hb]
      exact ih (fun l hl => hpre l (by simp [hl])) bad hbad rest acc
    · rw [if_neg hb]
      unfold cleanLine at ha
      rw [Bool.or_eq_true] at ha
      rcases ha with ha | ha
      · exact absurd ha hb
      · cases hma : matchActionLine a with
        | none => rw [hma] at ha
        | some v =>
          obtain ⟨n, ps⟩ := v
          rw [hma] at ha
          rw [Bool.and_eq_true_iff] at ha
          obtain ⟨act, hact⟩ := Option.isSome_iff_exists.mp ha.1
          have hpa : pb.action n = .ok act := by
            unfold Problem.action
            rw [hact]
          obtain ⟨os, hos⟩ := resolveParams_exists_ok pb ps (by
            intro p hp
            exact (List.all_eq_true.mp ha.2) p hp)
          simp only [hpa, hos]
          exact ih (fun l hl => hpre l (by simp [hl])) bad hbad rest _

theorem planFromFileAux_clean (pb : Problem) (cn : String)
    (hc : registryConsistent pb) :
    ∀ (lines : List String), (∀ l ∈ lines, cleanLine pb l = true) →
    ∀ acc, ∃ ais, planFromFileAux pb cn lines acc = .ok (acc ++ ais)
      ∧ serializePlan ais = extractActions lines := by
  intro lines
  induction lines with
  | nil => intro _ acc; exact ⟨[], by simp [planFromFileAux], rfl⟩
  | cons a lines ih =>
    intro hlines acc
    have ha := hlines a (by simp)
    simp only [planFromFileAux]
    by_cases hb : isBlankOrComment a = true
    · rw [if_pos hb]
      obtain ⟨ais, h1, h2⟩ := ih (fun l hl => hlines l (by simp [hl])) acc
      refine ⟨ais, h1, ?_⟩
      rw [h2]
      simp only [extractActions, List.filterMap_cons, hb, if_true]
    · rw [if_neg hb]
      unfold cleanLine at ha
      rw [Bool.or_eq_true] at ha
      rcases ha with ha | ha
      · exact absurd ha hb
      · cases hma : matchActionLine a with
        | none => rw [hma] at ha; exact Bool.noConfusion ha
        | some v =>
          obtain ⟨n, ps⟩ := v
          rw [hma] at ha
          rw [Bool.and_eq_true_iff] at ha
          obtain ⟨act, hact⟩ := Option.isSome_iff_exists.mp ha.1
          have hpa : pb.action n = .ok act := by
            unfold Problem.action
            rw [hact]
          obtain ⟨os, hos⟩ := resolveParams_exists_ok pb ps (by
            intro p hp
            exact (List.all_eq_true.mp ha.2) p hp)
          simp only [hpa, hos]
          obtain ⟨ais, h1, h2⟩ := ih (fun l hl => hlines l (by simp [hl]))
            (acc ++ [ActionInstance.mk act os])
          refine ⟨ActionInstance.mk act os :: ais, ?_, ?_⟩
          · rw [h1]
            simp
          · have hnames : os.map (fun o => o.obj.name) = ps :=
              resolveParams_names pb hc.2 ps os hos
            have hact_name : act.name = n := hc.1 n act hact
            have hext : extractActions (a :: lines) = (n, ps) :: extractActions lines := by
              simp only [extractActions, List.filterMap_cons, if_neg hb, hma]
            rw [hext, ← h2]
            simp [serializePlan, hnames, hact_name]

theorem planFromFileAux_all_blank (pb : Problem) (cn : String) :
    ∀ (lines : List String), (∀ l ∈ lines, isBlankOrComment l = true) →
    ∀ acc, planFromFileAux pb cn lines acc = .ok acc := by
  intro lines
  induction lines with
  | nil => intro _ acc; rfl
  | cons a lines ih =>
    intro h acc
    simp only [planFromFileAux, h a (by simp), if_true]
    exact ih (fun l hl => h l (by simp [hl])) acc

/-! ## Claim theorems: the plan parser -/

/-- C2 (counterexample): the claim says the parser accepts both
`name(param1 param2 ...)` and the bare `name param1 param2 ...`. It does
not: with every token registered in the problem, both shapes are
rejected with the `ParseError` message — only `(name param1 param2)`
would parse. -/
theorem C2_counterexample :
    plan_from_file sampleProblem "PDDLSolver" ["move(a b)"]
      = .error "Error parsing plan generated by PDDLSolver" ∧
    plan_from_file sampleProblem "PDDLSolver" ["move a b"]
      = .error "Error parsing plan generated by PDDLSolver" ∧
    plan_from_file sampleProblem "PDDLSolver" ["(move a b)"]
      = .ok ⟨[⟨⟨"move"⟩, [⟨⟨"a"⟩⟩, ⟨⟨"b"⟩⟩]⟩]⟩ := by
  refine ⟨rfl, rfl, rfl⟩

/-- C2 (amended): the parser accepts exactly the fully parenthesized
form: for every action-name token and parameter tokens (over
alphanumerics plus `-`, `_`, `?`), the line `(name p1 ... pn)` matches
the well-formed-action pattern with that name and those parameters, and
when the names resolve the parse of that single line succeeds instead of
raising `ParseError`. -/
theorem C2_paren_form_accepted (pb : Problem) (cn : String)
    (name : String) (params : List String)
    (hn : isToken name = true) (hp : ∀ p ∈ params, isToken p = true)
    (hact : (pb.actions name).isSome = true)
    (hobj : ∀ p ∈ params, (pb.objects p).isSome = true) :
    matchActionLine (mkActionLine name params) = some (name, params) ∧
    ∃ pl, plan_from_file pb cn [mkActionLine name params] = .ok pl := by
  have hm := matchActionLine_mk name params hn hp
  refine ⟨hm, ?_⟩
  unfold plan_from_file
  by_cases hb : isBlankOrComment (mkActionLine name params) = true
  · exact ⟨⟨[]⟩, by simp only [planFromFileAux, hb, if_true]; rfl⟩
  · obtain ⟨act, hact2⟩ := Option.isSome_iff_exists.mp hact
    obtain ⟨os, hos⟩ := resolveParams_exists_ok pb params hobj
    refine ⟨⟨[ActionInstance.mk act os]⟩, ?_⟩
    have hpa : pb.action name = .ok act := by
      unfold Problem.action
      rw [hact2]
    simp only [planFromFileAux, if_neg hb, hm, hpa, hos]
    rfl

/-- C3: a plan text containing a line matching neither the blank/comment
pattern nor the action pattern fails with the `ParseError` message
(no partial plan), and inside `solve` (plan file exists) the error
propagates out of `solve` instead of being treated as no plan found. -/
theorem C3_parse_error_aborts (pb : Problem) (cn pn : String)
    (pre : List String) (hpre : ∀ l ∈ pre, cleanLine pb l = true)
    (bad : String) (hbad : malformedLine bad = true) (rest : List String)
    (trace : List Cycle) (tmo : Option Nat) (rv : Int)
    (lr : LoopResult) (hrun : runLoop tmo trace [] [] [] = some lr)
    (rs : Option SequentialPlan → ResultStatus) :
    plan_from_file pb cn (pre ++ bad :: rest) = .error (parseErrorMsg cn) ∧
    solve pb cn pn (.ok ()) trace tmo rv true (pre ++ bad :: rest) rs
      = .error (parseErrorMsg cn) := by
  have hplan : plan_from_file pb cn (pre ++ bad :: rest) = .error (parseErrorMsg cn) := by
    unfold plan_from_file
    rw [planFromFileAux_error_at pb cn pre hpre bad hbad rest []]
    rfl
  refine ⟨hplan, ?_⟩
  unfold solve run_command
  rw [hrun]
  simp only [if_true, hplan]
  rfl

/-- C4 (counterexample): the claim says a parse failure includes the
offending line's content in its message. It does not: the `UPException`
message is the fixed string naming the solver class, and the offending
line `xyzzy)(` does not occur in it. -/
theorem C4_counterexample :
    plan_from_file emptyProblem "PDDLSolver" ["xyzzy)("]
      = .error "Error parsing plan generated by PDDLSolver" ∧
    containsSub "Error parsing plan generated by PDDLSolver" "xyzzy)(" = false := by
  refine ⟨rfl, by decide⟩

/-- C4 (amended): the error raised on a malformed line is the fixed
message `Error parsing plan generated by <class name>`: it identifies
the solver class and is independent of the offending line's content. -/
theorem C4_error_names_class (pb : Problem) (cn : String)
    (pre : List String) (hpre : ∀ l ∈ pre, cleanLine pb l = true)
    (bad : String) (hbad : malformedLine bad = true) (rest : List String) :
    plan_from_file pb cn (pre ++ bad :: rest) = .error (parseErrorMsg cn) := by
  unfold plan_from_file
  rw [planFromFileAux_error_at pb cn pre hpre bad hbad rest []]
  rfl

/-- C6: on a plan text of well-formed, resolvable lines the parse
succeeds and the parsed plan lists the actions in exact file order, each
with its parameters in exact token order: serializing the parsed plan
gives back exactly the (name, parameters) pairs extracted from the
text. -/
theorem C6_round_trip (pb : Problem) (cn : String) (hc : registryConsistent pb)
    (lines : List String) (hW : ∀ l ∈ lines, cleanLine pb l = true) :
    ∃ pl : SequentialPlan, plan_from_file pb cn lines = .ok pl ∧
      serializePlan pl.actions = extractActions lines := by
  obtain ⟨ais, h1, h2⟩ := planFromFileAux_clean pb cn hc lines hW []
  refine ⟨⟨ais⟩, ?_, h2⟩
  unfold plan_from_file
  rw [h1]
  rfl

/-- C7: a line that is blank or a comment after trimming never fails and
never changes the parsed plan — parsing with the line inserted anywhere
equals parsing with it removed. -/
theorem C7_blank_comment_removable (pb : Problem) (cn : String)
    (l1 l2 : List String) (b : String) (hb : isBlankOrComment b = true) :
    plan_from_file pb cn (l1 ++ b :: l2) = plan_from_file pb cn (l1 ++ l2) := by
  unfold plan_from_file
  rw [planFromFileAux_insert_blank pb cn b hb l1 l2 []]

/-! ## Claim theorems: the process runner and the orchestrator -/

/-- C5: in any polling cycle that does not hit end-of-stream, when the
elapsed wall-clock time has reached or exceeded the timeout the runner
kills the child (`killInvoked = true`), swallows a kill failure (the
result does not depend on `kf`, which is universally quantified and
absent from the right-hand side), sets `timeout_occoured = true`, stops
draining (the remaining trace `rest` is ignored), and returns all output
captured so far, including this cycle's chunks. -/
theorem C5_deadline_kills_and_returns (t : Nat) (l0 l1 : String) (ok0 ok1 : Bool)
    (e : Nat) (kf : Bool) (rest : List Cycle) (out0 out1 sink : List String)
    (heof : eofCycle ⟨l0, l1, ok0, ok1, e, kf⟩ = false)
    (ht : t ≤ e) :
    runLoop (some t) (⟨l0, l1, ok0, ok1, e, kf⟩ :: rest) out0 out1 sink
      = some ⟨true, out0 ++ [decodeChunk l0], out1 ++ [decodeChunk l1],
          sink ++ [decodeChunk l0, decodeChunk l1], true⟩ := by
  simp only [runLoop, heof, Bool.false_eq_true, if_false, if_pos ht]

/-- C9: when the child process cannot be spawned, `run_command`
propagates the failure, and it comes out of `solve` as the same distinct
error — never a timeout outcome or an empty result. -/
theorem C9_spawn_error_propagates (pb : Problem) (cn pn err : String)
    (trace : List Cycle) (tmo : Option Nat) (rv : Int) (pfe : Bool)
    (lines : List String) (rs : Option SequentialPlan → ResultStatus) :
    run_command (.error err) trace tmo rv = .error err ∧
    solve pb cn pn (.error err) trace tmo rv pfe lines rs = .error err :=
  ⟨rfl, rfl⟩

/-- C8: every result returned by `solve` carries exactly two log
messages, in order: the joined captured stdout at level INFO, then the
joined captured stderr at level ERROR — present even when the captured
text is empty. -/
theorem C8_two_log_messages (pb : Problem) (cn pn : String) (trace : List Cycle)
    (tmo : Option Nat) (rv : Int) (pfe : Bool) (lines : List String)
    (rs : Option SequentialPlan → ResultStatus)
    (lr : LoopResult) (hrun : runLoop tmo trace [] [] [] = some lr)
    (r : PlanGenerationResult)
    (hsolve : solve pb cn pn (.ok ()) trace tmo rv pfe lines rs = .ok (some r)) :
    r.log_messages = [⟨LogLevel.INFO, String.join lr.out0⟩,
                      ⟨LogLevel.ERROR, String.join lr.out1⟩] := by
  unfold solve run_command at hsolve
  rw [hrun] at hsolve
  simp only [] at hsolve
  cases hpl : (if pfe then (plan_from_file pb cn lines).map some
               else Except.ok none : Except String (Option SequentialPlan)) with
  | error e => simp only [hpl] at hsolve; exact Except.noConfusion hsolve
  | ok plan =>
    simp only [hpl] at hsolve
    by_cases hcond : lr.timeout_occoured = true ∧ rv ≠ 0
    · rw [if_pos hcond] at hsolve
      cases hsolve
      rfl
    · rw [if_neg hcond] at hsolve
      cases hsolve
      rfl

/-- C1: the returned status is TIMEOUT exactly when the runner reported
a timeout and the recorded exit code is non-zero (given that the
externally supplied classifier never returns TIMEOUT, per its contract
of choosing among the other four statuses); in every other case the
status is the classifier's value on the parsed plan — regardless of
whether a plan was parsed (`pfe` and `lines` are arbitrary). -/
theorem C1_timeout_status (pb : Problem) (cn pn : String) (trace : List Cycle)
    (tmo : Option Nat) (rv : Int) (pfe : Bool) (lines : List String)
    (rs : Option SequentialPlan → ResultStatus)
    (hrs : ∀ p, rs p ≠ ResultStatus.TIMEOUT)
    (lr : LoopResult) (hrun : runLoop tmo trace [] [] [] = some lr)
    (r : PlanGenerationResult)
    (hsolve : solve pb cn pn (.ok ()) trace tmo rv pfe lines rs = .ok (some r)) :
    (r.status = ResultStatus.TIMEOUT ↔ (lr.timeout_occoured = true ∧ rv ≠ 0)) ∧
    (¬(lr.timeout_occoured = true ∧ rv ≠ 0) → r.status = rs r.plan) := by
  unfold solve run_command at hsolve
  rw [hrun] at hsolve
  simp only [] at hsolve
  cases hpl : (if pfe then (plan_from_file pb cn lines).map some
               else Except.ok none : Except String (Option SequentialPlan)) with
  | error e => simp only [hpl] at hsolve; exact Except.noConfusion hsolve
  | ok plan =>
    simp only [hpl] at hsolve
    by_cases hcond : lr.timeout_occoured = true ∧ rv ≠ 0
    · rw [if_pos hcond] at hsolve
      cases hsolve
      exact ⟨by simp [hcond], fun hn => absurd hcond hn⟩
    · rw [if_neg hcond] at hsolve
      cases hsolve
      refine ⟨?_, fun _ => rfl⟩
      simp only [hcond, iff_false]
      exact hrs plan

/-- C10: a plan file whose lines are all blank or comments (including an
empty file) parses to an empty `SequentialPlan` — neither an error nor
the absence of a plan — so on the non-timeout path `solve` hands the
classifier `some` empty plan, never `none`, and the result carries that
empty plan. -/
theorem C10_all_blank_gives_empty_plan (pb : Problem) (cn pn : String)
    (lines : List String) (hbl : ∀ l ∈ lines, isBlankOrComment l = true)
    (trace : List Cycle) (tmo : Option Nat) (rv : Int)
    (lr : LoopResult) (hrun : runLoop tmo trace [] [] [] = some lr)
    (hnt : ¬(lr.timeout_occoured = true ∧ rv ≠ 0))
    (rs : Option SequentialPlan → ResultStatus) :
    plan_from_file pb cn lines = .ok ⟨[]⟩ ∧
    solve pb cn pn (.ok ()) trace tmo rv true lines rs
      = .ok (some ⟨rs (some ⟨[]⟩), some ⟨[]⟩,
          [⟨LogLevel.INFO, String.join lr.out0⟩,
           ⟨LogLevel.ERROR, String.join lr.out1⟩], pn⟩) := by
  have hplan : plan_from_file pb cn lines = .ok ⟨[]⟩ := by
    unfold plan_from_file
    rw [planFromFileAux_all_blank pb cn lines hbl []]
    rfl
  refine ⟨hplan, ?_⟩
  unfold solve run_command
  rw [hrun]
  simp only [if_true, hplan, Except.map]
  rw [if_neg hnt]

/-! ## Witness instantiations -/

theorem sampleProblem_consistent : registryConsistent sampleProblem := by
  constructor
  · intro n a h
    have h2 : (if n = "move" then some (Action.mk "move") else none) = some a := h
    by_cases hn : n = "move"
    · subst hn
      rw [if_pos rfl] at h2
      cases h2
      rfl
    · rw [if_neg hn] at h2
      exact Option.noConfusion h2
  · intro n o h
    have h2 : (if n = "a" then some (PObject.mk "a")
               else if n = "b" then some (PObject.mk "b") else none) = some o := h
    by_cases hn : n = "a"
    · subst hn
      rw [if_pos rfl] at h2
      cases h2
      rfl
    · rw [if_neg hn] at h2
      by_cases hn2 : n = "b"
      · subst hn2
        rw [if_pos rfl] at h2
        cases h2
        rfl
      · rw [if_neg hn2] at h2
        exact Option.noConfusion h2

/-- Witness for `C1_timeout_status` at a concrete timed-out run with
exit code 9. -/
theorem C1_timeout_status_witness :
    ((⟨ResultStatus.TIMEOUT, none,
        [⟨LogLevel.INFO, "out"⟩, ⟨LogLevel.ERROR, ""⟩], "p"⟩ :
          PlanGenerationResult).status = ResultStatus.TIMEOUT
      ↔ (true = true ∧ (9 : Int) ≠ 0)) ∧
    (¬(true = true ∧ (9 : Int) ≠ 0) →
      (⟨ResultStatus.TIMEOUT, none,
        [⟨LogLevel.INFO, "out"⟩, ⟨LogLevel.ERROR, ""⟩], "p"⟩ :
          PlanGenerationResult).status
        = (fun _ => ResultStatus.SUCCESS)
            (⟨ResultStatus.TIMEOUT, none,
              [⟨LogLevel.INFO, "out"⟩, ⟨LogLevel.ERROR, ""⟩], "p"⟩ :
                PlanGenerationResult).plan) :=
  C1_timeout_status emptyProblem "PDDLSolver" "p" [⟨"out", "", true, true, 5, false⟩]
    (some 3) 9 false [] (fun _ => ResultStatus.SUCCESS)
    (fun _ h => ResultStatus.noConfusion h)
    ⟨true, ["out"], [""], ["out", ""], true⟩ rfl
    ⟨ResultStatus.TIMEOUT, none, [⟨LogLevel.INFO, "out"⟩, ⟨LogLevel.ERROR, ""⟩], "p"⟩ rfl

/-- Witness for `C2_paren_form_accepted` on `(move a b)`. -/
theorem C2_paren_form_witness :
    matchActionLine (mkActionLine "move" ["a", "b"]) = some ("move", ["a", "b"]) ∧
    ∃ pl, plan_from_file sampleProblem "PDDLSolver" [mkActionLine "move" ["a", "b"]]
      = .ok pl :=
  C2_paren_form_accepted sampleProblem "PDDLSolver" "move" ["a", "b"]
    (by decide) (by decide) (by decide) (by decide)

/-- Witness for `C3_parse_error_aborts` with a bare (unparenthesized)
line after a comment. -/
theorem C3_parse_error_witness :
    plan_from_file sampleProblem "PDDLSolver" (["; c"] ++ "move a b" :: [])
      = .error (parseErrorMsg "PDDLSolver") ∧
    solve sampleProblem "PDDLSolver" "p" (.ok ()) [⟨"", "", true, true, 0, false⟩]
        none 0 true (["; c"] ++ "move a b" :: []) (fun _ => ResultStatus.SUCCESS)
      = .error (parseErrorMsg "PDDLSolver") :=
  C3_parse_error_aborts sampleProblem "PDDLSolver" "p" ["; c"] (by decide)
    "move a b" (by decide) [] [⟨"", "", true, true, 0, false⟩] none 0
    ⟨false, [], [], [], false⟩ rfl (fun _ => ResultStatus.SUCCESS)

/-- Witness for `C4_error_names_class` after a well-formed first line. -/
theorem C4_error_names_class_witness :
    plan_from_file sampleProblem "PDDLSolver" (["(move a b)"] ++ "xyzzy )" :: [])
      = .error (parseErrorMsg "PDDLSolver") :=
  C4_error_names_class sampleProblem "PDDLSolver" ["(move a b)"] (by decide)
    "xyzzy )" (by decide) []

/-- Witness for `C5_deadline_kills_and_returns`: elapsed 7 against
timeout 5, a pending second cycle that is never consumed, and a kill
that would fail (`kf = true`) yet is swallowed. -/
theorem C5_deadline_witness :
    runLoop (some 5) [⟨"chunk", "", true, false, 7, true⟩, ⟨"x", "y", true, true, 0, false⟩]
        ["p"] ["q"] ["s"]
      = some ⟨true, ["p", "chunk"], ["q", ""], ["s", "chunk", ""], true⟩ :=
  C5_deadline_kills_and_returns 5 "chunk" "" true false 7 true
    [⟨"x", "y", true, true, 0, false⟩] ["p"] ["q"] ["s"] (by decide) (by decide)

/-- Witness for `C6_round_trip` on a comment, an action line, and a
blank line. -/
theorem C6_round_trip_witness :
    ∃ pl : SequentialPlan,
      plan_from_file sampleProblem "PDDLSolver" ["; plan", "(move a b)", ""] = .ok pl ∧
      serializePlan pl.actions = extractActions ["; plan", "(move a b)", ""] :=
  C6_round_trip sampleProblem "PDDLSolver" sampleProblem_consistent
    ["; plan", "(move a b)", ""] (by decide)

/-- Witness for `C7_blank_comment_removable`: a comment line between two
action lines. -/
theorem C7_blank_comment_witness :
    plan_from_file sampleProblem "PDDLSolver" (["(move a b)"] ++ "; note" :: ["(move b a)"])
      = plan_from_file sampleProblem "PDDLSolver" (["(move a b)"] ++ ["(move b a)"]) :=
  C7_blank_comment_removable sampleProblem "PDDLSolver" ["(move a b)"] ["(move b a)"]
    "; note" (by decide)

/-- Witness for `C8_two_log_messages` on a run with empty captured
output: both log entries are still present. -/
theorem C8_two_log_messages_witness :
    (⟨ResultStatus.SUCCESS, none, [⟨LogLevel.INFO, ""⟩, ⟨LogLevel.ERROR, ""⟩], "p"⟩ :
        PlanGenerationResult).log_messages
      = [⟨LogLevel.INFO, String.join []⟩, ⟨LogLevel.ERROR, String.join []⟩] :=
  C8_two_log_messages emptyProblem "PDDLSolver" "p" [⟨"", "", true, true, 0, false⟩]
    none 0 false [] (fun _ => ResultStatus.SUCCESS) ⟨false, [], [], [], false⟩ rfl
    ⟨ResultStatus.SUCCESS, none, [⟨LogLevel.INFO, ""⟩, ⟨LogLevel.ERROR, ""⟩], "p"⟩ rfl

/-- Witness for `C10_all_blank_gives_empty_plan` on a comment line and a
blank line. -/
theorem C10_all_blank_witness :
    plan_from_file emptyProblem "PDDLSolver" ["; a", ""] = .ok ⟨[]⟩ ∧
    solve emptyProblem "PDDLSolver" "p" (.ok ()) [⟨"", "", true, true, 0, false⟩]
        none 0 true ["; a", ""] (fun _ => ResultStatus.UNSOLVABLE)
      = .ok (some ⟨ResultStatus.UNSOLVABLE, some ⟨[]⟩,
          [⟨LogLevel.INFO, String.join ([] : List String)⟩,
           ⟨LogLevel.ERROR, String.join ([] : List String)⟩], "p"⟩) :=
  C10_all_blank_gives_empty_plan emptyProblem "PDDLSolver" "p" ["; a", ""] (by decide)
    [⟨"", "", true, true, 0, false⟩] none 0 ⟨false, [], [], [], false⟩ rfl
    (by decide) (fun _ => ResultStatus.UNSOLVABLE)

end PddlSolver
